import Mathlib

/-!
Verification of the geforcenow-proxy repository core: the URL rewriter
(src/http-rewriter.js), the session/cookie relay middleware
(src/session-cookie-middleware.js), the WebSocket relay
(src/websocket-webrtc-relay.js) and the API proxy error handlers (index.js).

The JavaScript source is shallowly embedded: JS Maps and plain objects become
association lists with set-replaces-in-place semantics (matching Map.set and
property assignment), JS numbers used as counters and timestamps become Nat,
the one place where JS infinities are observable (getStats on an empty
registry) uses an explicit extended-number type, and host-library URL
functions (encodeURIComponent, the WHATWG URL constructor) are abstracted as
function parameters since their exact output never matters for the claims.
-/

set_option maxRecDepth 4096
set_option linter.unusedVariables false

/-! ## JS-style helper functions -/

/-- JS single-character String.prototype.split on a list of characters:
splits at every occurrence of the separator, keeping empty pieces. -/
def splitChar (c : Char) : List Char → List (List Char)
  | [] => [[]]
  | x :: xs =>
    if x = c then [] :: splitChar c xs
    else
      match splitChar c xs with
      | [] => [[x]]
      | y :: ys => (x :: y) :: ys

/-- JS String.prototype.split with a single-character separator. -/
def jsSplit (c : Char) (s : String) : List String :=
  (splitChar c s.data).map String.mk

/-- Whitespace trimming on character lists (both ends). -/
def trimChars (l : List Char) : List Char :=
  ((l.dropWhile Char.isWhitespace).reverse.dropWhile Char.isWhitespace).reverse

/-- JS String.prototype.trim. -/
def jsTrim (s : String) : String :=
  String.mk (trimChars s.data)

/-- JS String.prototype.toLowerCase (ASCII-level, as used on cookie
attribute names). -/
def jsToLower (s : String) : String :=
  String.mk (s.data.map Char.toLower)

/-- JS String.prototype.startsWith. -/
def jsStartsWith (s p : String) : Bool :=
  p.data.isPrefixOf s.data

/-- JS Map / plain-object lookup (Map.prototype.get, property read). -/
def jmGet {α : Type} : List (String × α) → String → Option α
  | [], _ => none
  | (k', v) :: rest, k => if k' = k then some v else jmGet rest k

/-- JS Map.prototype.set / property assignment: an existing key keeps its
position and is overwritten; a new key is appended. -/
def jmSet {α : Type} : List (String × α) → String → α → List (String × α)
  | [], k, v => [(k, v)]
  | (k', v') :: rest, k, v =>
    if k' = k then (k, v) :: rest else (k', v') :: jmSet rest k v

/-- JS Map.prototype.delete: removes the (unique) entry with this key. -/
def jmDelete {α : Type} : List (String × α) → String → List (String × α)
  | [], _ => []
  | (k', v') :: rest, k =>
    if k' = k then rest else (k', v') :: jmDelete rest k

/-! ## Session and cookie relay middleware (src/session-cookie-middleware.js) -/

/-- Value of a cookie attribute as produced by parseCookieString: the JS
expression attrValue || true yields either the attribute value string or the
boolean true; the stripSecure/stripHttpOnly overrides later assign the
boolean false. -/
inductive AttrVal
  | str (v : String)
  | flag (b : Bool)
deriving DecidableEq

/-- Result of CookieRelayMiddleware.parseCookieString (lines 121-133):
name, value (undefined when the first part has no '='), and the attribute
object keyed by lowercased attribute name. -/
structure ParsedCookie where
  name : String
  value : Option String
  attributes : List (String × AttrVal)
deriving DecidableEq

/-- CookieRelayMiddleware constructor options (lines 37-46). -/
structure CookieRelayOptions where
  stripSecure : Bool
  stripHttpOnly : Bool
  cookieWhitelist : List String
  cookieBlacklist : List String
deriving DecidableEq

/-- A session's cookie jar: plain object mapping cookie name to the stored
value (relayCookie stores parsed.value, which may be undefined). -/
abbrev CookieJar := List (String × Option String)

/-- The middleware's cookieStore: Map from session id to its jar. -/
abbrev CookieStore := List (String × CookieJar)

/-- Options with no overrides and empty policy lists. -/
def noPolicyOptions : CookieRelayOptions :=
  { stripSecure := false, stripHttpOnly := false, cookieWhitelist := [], cookieBlacklist := [] }

/-- Options with only stripSecure configured. -/
def stripSecureOptions : CookieRelayOptions :=
  { stripSecure := true, stripHttpOnly := false, cookieWhitelist := [], cookieBlacklist := [] }

/-- Options with both attribute overrides configured. -/
def stripBothOptions : CookieRelayOptions :=
  { stripSecure := true, stripHttpOnly := true, cookieWhitelist := [], cookieBlacklist := [] }

/-- CookieRelayMiddleware.parseCookieString (lines 121-133): split on ';',
trim the parts, split the first part on '=' for name/value, and fold the
remaining parts into the attribute object. -/
def parseCookieString (cookieString : String) : ParsedCookie :=
  let parts := (jsSplit ';' cookieString).map jsTrim
  let nameValue := parts.headD ""
  let nv := jsSplit '=' nameValue
  let attributes := (parts.drop 1).foldl
    (fun attrs part =>
      let kv := (jsSplit '=' part).map jsTrim
      let attrValue := (kv.drop 1).head?
      jmSet attrs (jsToLower (kv.headD ""))
        (match attrValue with
          | some v => if v = "" then AttrVal.flag true else AttrVal.str v
          | none => AttrVal.flag true))
    []
  { name := nv.headD "", value := (nv.drop 1).head?, attributes := attributes }

/-- Lines 99-105 of CookieRelayMiddleware.relayCookie, factored out: force
the secure attribute to false when stripSecure is set, then the httpOnly
attribute when stripHttpOnly is set. The source assigns the (camel-case)
property httpOnly even though parsing lowercases attribute names. -/
def applyOverrides (opts : CookieRelayOptions) (parsed : ParsedCookie) : ParsedCookie :=
  let p1 :=
    if opts.stripSecure then
      { parsed with attributes := jmSet parsed.attributes "secure" (AttrVal.flag false) }
    else parsed
  if opts.stripHttpOnly then
    { p1 with attributes := jmSet p1.attributes "httpOnly" (AttrVal.flag false) }
  else p1

/-- CookieRelayMiddleware.storeCookies (lines 71-77): ensure the session has
a jar, then Object.assign the given cookies into it. -/
def storeCookies (store : CookieStore) (sessionId : String) (cookies : CookieJar) :
    CookieStore :=
  let store1 := if (jmGet store sessionId).isSome then store else jmSet store sessionId []
  let sessionCookies := (jmGet store1 sessionId).getD []
  jmSet store1 sessionId
    (cookies.foldl (fun jar kv => jmSet jar kv.1 kv.2) sessionCookies)

/-- CookieRelayMiddleware.relayCookie (lines 84-114): parse, apply the
whitelist then the blacklist, apply the attribute overrides, then store the
single pair name -> value in the session jar. -/
def relayCookie (opts : CookieRelayOptions) (store : CookieStore)
    (sessionId cookieString : String) : CookieStore :=
  let parsed := parseCookieString cookieString
  if 0 < opts.cookieWhitelist.length ∧ parsed.name ∉ opts.cookieWhitelist then store
  else if parsed.name ∈ opts.cookieBlacklist then store
  else
    let parsed2 := applyOverrides opts parsed
    storeCookies store sessionId [(parsed2.name, parsed2.value)]

/-- CookieRelayMiddleware.getCookies (lines 140-142). -/
def getCookies (store : CookieStore) (sessionId : String) : CookieJar :=
  (jmGet store sessionId).getD []

/-- CookieRelayMiddleware.clearCookies (lines 148-150). -/
def clearCookies (store : CookieStore) (sessionId : String) : CookieStore :=
  jmDelete store sessionId

/-! ## URL rewriter (src/http-rewriter.js) -/

/-- Host-library URL functions used by rewriteUrl, abstracted as parameters
of the embedding: encodeURIComponent, the origin extraction
protocol + '//' + host performed with new URL(targetUrl), and the relative
resolution new URL(url, targetUrl).href. The claims about rewriteUrl hold
for every behaviour of these functions, so no properties are assumed. -/
structure UrlLib where
  encodeURIComponent : String → String
  urlOrigin : String → String
  urlResolve : String → String → String

/-- rewriteUrl (src/http-rewriter.js lines 116-152): skip empty, '#' and
javascript: inputs; skip inputs already prefixed by proxyBaseUrl; otherwise
build a proxy link from the absolute form of the URL. The final branch
returns fragment references unchanged. -/
def rewriteUrl (lib : UrlLib) (url proxyBaseUrl targetUrl : String) : String :=
  if url = "" ∨ url = "#" ∨ jsStartsWith url "javascript:" = true then url
  else if jsStartsWith url proxyBaseUrl = true then url
  else if jsStartsWith url "http://" = true ∨ jsStartsWith url "https://" = true then
    proxyBaseUrl ++ ("/proxy?url=" ++ lib.encodeURIComponent url)
  else if jsStartsWith url "//" = true then
    proxyBaseUrl ++ ("/proxy?url=" ++ lib.encodeURIComponent ("https:" ++ url))
  else if jsStartsWith url "/" = true then
    proxyBaseUrl ++ ("/proxy?url=" ++ lib.encodeURIComponent (lib.urlOrigin targetUrl ++ url))
  else if ¬ jsStartsWith url "#" = true then
    proxyBaseUrl ++ ("/proxy?url=" ++ lib.encodeURIComponent (lib.urlResolve url targetUrl))
  else url

/-- Simple concrete instantiation of the URL library, used to evaluate
rewriteUrl on concrete inputs in witnesses. -/
def idUrlLib : UrlLib :=
  { encodeURIComponent := id, urlOrigin := id, urlResolve := fun u _ => u }

/-! ## WebSocket relay (src/websocket-webrtc-relay.js) -/

/-- WebSocketRelay constructor options (lines 15-21). -/
structure RelayOptions where
  timeout : Nat
  heartbeatInterval : Nat
  maxConnections : Nat
deriving DecidableEq

/-- Per-connection record registered by handleConnection (lines 63-70). -/
structure ConnectionData where
  id : String
  ip : String
  createdAt : Nat
  lastActivity : Nat
  messages : Nat
deriving DecidableEq

/-- The relay's connections Map, keyed by connection id. -/
abbrev Registry := List (String × ConnectionData)

/-- Outcome of an upgrade attempt: either the socket is kept open and the
connection registered, or ws.close(code, reason) rejects it. -/
inductive UpgradeResult
  | accepted
  | rejected (code : Nat) (reason : String)
deriving DecidableEq

/-- WebSocketRelay.handleConnection (lines 51-92): generate an id, reject
with close code 1008 when the registry is at maxConnections, otherwise
register the connection metadata. The generated id and Date.now() are
parameters of the embedding. -/
def handleConnection (opts : RelayOptions) (conns : Registry)
    (connectionId clientIp : String) (now : Nat) : Registry × UpgradeResult :=
  if conns.length ≥ opts.maxConnections then
    (conns, UpgradeResult.rejected 1008 "Server at max capacity")
  else
    (jmSet conns connectionId
      { id := connectionId, ip := clientIp, createdAt := now, lastActivity := now,
        messages := 0 },
      UpgradeResult.accepted)

/-- WebSocketRelay.handleMessage (lines 99-127), registry effect only: bump
lastActivity and the message counter for a registered connection. The
relay-echo reply is socket output with no registry effect. -/
def handleMessage (conns : Registry) (connectionId : String) (now : Nat) : Registry :=
  match jmGet conns connectionId with
  | none => conns
  | some conn =>
    jmSet conns connectionId { conn with lastActivity := now, messages := conn.messages + 1 }

/-- WebSocketRelay.handleClose (lines 133-139): deregister a registered
connection; unknown ids are ignored. -/
def handleClose (conns : Registry) (connectionId : String) : Registry :=
  match jmGet conns connectionId with
  | none => conns
  | some _ => jmDelete conns connectionId

/-- WebSocketRelay.handleError (lines 146-148): the body is a single
console.error call, so the registry is returned unchanged. -/
def handleError (conns : Registry) (connectionId errorMessage : String) : Registry :=
  conns

/-- The pong listener installed by handleConnection (lines 86-91): refresh
lastActivity of a registered connection. -/
def handlePong (conns : Registry) (connectionId : String) (now : Nat) : Registry :=
  match jmGet conns connectionId with
  | none => conns
  | some conn => jmSet conns connectionId { conn with lastActivity := now }

/-- Socket-level actions emitted by one heartbeat sweep, in program order. -/
inductive SweepAction
  | close (id : String) (code : Nat) (reason : String)
  | ping (id : String)
deriving DecidableEq

/-- One run of the interval body of WebSocketRelay.startHeartbeat (lines
154-167): iterate the registry in insertion order; a connection idle longer
than opts.timeout is closed with ws.close(1000, 'Timeout') and deleted,
every other connection is pinged. Nat subtraction matches the JS number
subtraction here because a negative JS difference also fails the
strictly-greater test. -/
def heartbeatSweep (opts : RelayOptions) (now : Nat) :
    Registry → Registry × List SweepAction
  | [] => ([], [])
  | (id, conn) :: rest =>
    let r := heartbeatSweep opts now rest
    if now - conn.lastActivity > opts.timeout then
      (r.1, SweepAction.close id 1000 "Timeout" :: r.2)
    else
      ((id, conn) :: r.1, SweepAction.ping id :: r.2)

/-- JS numbers as observable in getStats: Math.min of an empty spread is
Infinity and Date.now() minus Infinity is -Infinity. -/
inductive JsNumber
  | fin (n : Int)
  | posInf
  | negInf
deriving DecidableEq

/-- Math.min over a spread list of naturals. -/
def mathMin (l : List Nat) : JsNumber :=
  match l with
  | [] => JsNumber.posInf
  | x :: xs => JsNumber.fin (Int.ofNat (xs.foldl Nat.min x))

/-- Subtraction of a possibly-infinite quantity from a finite timestamp. -/
def jsSub (a : Nat) (b : JsNumber) : JsNumber :=
  match b with
  | JsNumber.fin m => JsNumber.fin (Int.ofNat a - m)
  | JsNumber.posInf => JsNumber.negInf
  | JsNumber.negInf => JsNumber.posInf

/-- Shape of the object returned by WebSocketRelay.getStats. -/
structure RelayStats where
  activeConnections : Nat
  totalMessages : Nat
  oldestConnectionAge : JsNumber
  maxCapacity : Nat
deriving DecidableEq

/-- WebSocketRelay.getStats (lines 182-196). -/
def getStats (opts : RelayOptions) (conns : Registry) (now : Nat) : RelayStats :=
  { activeConnections := conns.length
    totalMessages := (conns.map (fun e => e.2.messages)).foldl (fun a b => a + b) 0
    oldestConnectionAge := jsSub now (mathMin (conns.map (fun e => e.2.createdAt)))
    maxCapacity := opts.maxConnections }

/-- Events that mutate the connection registry, for reasoning about
arbitrary interleavings of upgrades, traffic, closes, errors, pongs and
heartbeat sweeps. -/
inductive RelayEvent
  | upgrade (connectionId clientIp : String) (now : Nat)
  | message (connectionId : String) (now : Nat)
  | close (connectionId : String)
  | error (connectionId errorMessage : String)
  | pong (connectionId : String) (now : Nat)
  | sweep (now : Nat)

/-- Registry effect of one event. -/
def applyEvent (opts : RelayOptions) (conns : Registry) : RelayEvent → Registry
  | RelayEvent.upgrade id ip now => (handleConnection opts conns id ip now).1
  | RelayEvent.message id now => handleMessage conns id now
  | RelayEvent.close id => handleClose conns id
  | RelayEvent.error id msg => handleError conns id msg
  | RelayEvent.pong id now => handlePong conns id now
  | RelayEvent.sweep now => (heartbeatSweep opts now conns).1

/-- Registry reached after a sequence of events. -/
def runEvents (opts : RelayOptions) (conns : Registry) (events : List RelayEvent) : Registry :=
  events.foldl (applyEvent opts) conns

/-- Ids closed by a sweep, in emission order. -/
def closedIds : List SweepAction → List String
  | [] => []
  | SweepAction.close id _ _ :: rest => id :: closedIds rest
  | SweepAction.ping _ :: rest => closedIds rest

/-- Ids pinged by a sweep, in emission order. -/
def pingedIds : List SweepAction → List String
  | [] => []
  | SweepAction.close _ _ _ :: rest => pingedIds rest
  | SweepAction.ping id :: rest => id :: pingedIds rest

/-- Whether an action is a liveness probe. -/
def isPingAction : SweepAction → Bool
  | SweepAction.ping _ => true
  | SweepAction.close _ _ _ => false

/-- Whether every eviction in an action trace is emitted before every
liveness probe (the ordering the specification asserts for one sweep). -/
def allClosesPrecedePings : List SweepAction → Bool
  | [] => true
  | SweepAction.close _ _ _ :: rest => allClosesPrecedePings rest
  | SweepAction.ping _ :: rest => rest.all isPingAction

/-! ## API proxy catch handlers (index.js) -/

/-- JS x || d for a number that may be undefined (error.response?.status):
undefined and 0 are falsy. -/
def jsNumberOr (x : Option Nat) (dflt : Nat) : Nat :=
  match x with
  | some n => if n = 0 then dflt else n
  | none => dflt

/-- JSON body produced by the catch handlers of the /api/* routes. -/
structure JsonErrorBody where
  error : String
  message : String
  timestamp : String
deriving DecidableEq

/-- Status and body sent by res.status(...).json(...) in a catch handler. -/
structure ApiErrorResponse where
  status : Nat
  body : JsonErrorBody
deriving DecidableEq

/-- Catch handler of app.get('/api/*') (index.js lines 48-55):
res.status(error.response?.status || 500) with a JSON body carrying error,
message and timestamp fields. -/
def apiGetCatchResponse (upstreamStatus : Option Nat) (errorMessage timestamp : String) :
    ApiErrorResponse :=
  { status := jsNumberOr upstreamStatus 500
    body := { error := "Proxy request failed", message := errorMessage,
              timestamp := timestamp } }

/-- Catch handler of app.post('/api/*') (index.js lines 75-82), identical in
behaviour to the GET handler's. -/
def apiPostCatchResponse (upstreamStatus : Option Nat) (errorMessage timestamp : String) :
    ApiErrorResponse :=
  { status := jsNumberOr upstreamStatus 500
    body := { error := "Proxy request failed", message := errorMessage,
              timestamp := timestamp } }

/-! ## Lemmas about the JS map embedding -/

theorem stringMkData (s : String) : String.mk s.data = s := rfl

theorem stringDataAppend (a b : String) : (a ++ b).data = a.data ++ b.data := by
  cases a; cases b; rfl

theorem jmGet_jmSet_self {α : Type} (m : List (String × α)) (k : String) (v : α) :
    jmGet (jmSet m k v) k = some v := by
  induction m with
  | nil => simp [jmGet, jmSet]
  | cons h t ih =>
    obtain ⟨k', v'⟩ := h
    by_cases hk : k' = k
    · simp [jmGet, jmSet, hk]
    · simp [jmGet, jmSet, hk, ih]

theorem jmGet_jmSet_ne {α : Type} (m : List (String × α)) (k k' : String) (v : α)
    (h : k ≠ k') : jmGet (jmSet m k v) k' = jmGet m k' := by
  induction m with
  | nil => simp [jmGet, jmSet, h]
  | cons hd t ih =>
    obtain ⟨k₀, v₀⟩ := hd
    by_cases hk : k₀ = k
    · subst hk
      simp [jmGet, jmSet, h]
    · simp only [jmSet, if_neg hk]
      by_cases hk' : k₀ = k'
      · simp [jmGet, hk']
      · simp [jmGet, hk', ih]

theorem jmSet_length_le {α : Type} (m : List (String × α)) (k : String) (v : α) :
    (jmSet m k v).length ≤ m.length + 1 := by
  induction m with
  | nil => simp [jmSet]
  | cons h t ih =>
    obtain ⟨k', v'⟩ := h
    by_cases hk : k' = k
    · simp [jmSet, hk]
    · simpa [jmSet, hk] using Nat.succ_le_succ ih

theorem jmSet_length_of_isSome {α : Type} (m : List (String × α)) (k : String) (v : α)
    (h : (jmGet m k).isSome = true) : (jmSet m k v).length = m.length := by
  induction m with
  | nil => simp [jmGet] at h
  | cons hd t ih =>
    obtain ⟨k', v'⟩ := hd
    by_cases hk : k' = k
    · simp [jmSet, hk]
    · simp only [jmGet, if_neg hk] at h
      simpa [jmSet, hk] using ih h

theorem jmDelete_length_le {α : Type} (m : List (String × α)) (k : String) :
    (jmDelete m k).length ≤ m.length := by
  induction m with
  | nil => simp [jmDelete]
  | cons hd t ih =>
    obtain ⟨k', v'⟩ := hd
    by_cases hk : k' = k
    · simp [jmDelete, hk, Nat.le_succ_of_le]
    · simpa [jmDelete, hk] using Nat.succ_le_succ ih

theorem jmDelete_length_of_isSome {α : Type} (m : List (String × α)) (k : String)
    (h : (jmGet m k).isSome = true) : (jmDelete m k).length + 1 = m.length := by
  induction m with
  | nil => simp [jmGet] at h
  | cons hd t ih =>
    obtain ⟨k', v'⟩ := hd
    by_cases hk : k' = k
    · simp [jmDelete, hk]
    · simp only [jmGet, if_neg hk] at h
      simpa [jmDelete, hk] using ih h

theorem jmGet_none_of_not_mem {α : Type} (m : List (String × α)) (k : String)
    (h : k ∉ m.map Prod.fst) : jmGet m k = none := by
  induction m with
  | nil => rfl
  | cons hd t ih =>
    obtain ⟨k', v'⟩ := hd
    simp only [List.map_cons, List.mem_cons] at h
    push_neg at h
    have hne : ¬ k' = k := fun hc => h.1 hc.symm
    simp [jmGet, hne, ih h.2]

theorem jmGet_jmDelete_self {α : Type} (m : List (String × α)) (k : String)
    (hnd : (m.map Prod.fst).Nodup) : jmGet (jmDelete m k) k = none := by
  induction m with
  | nil => rfl
  | cons hd t ih =>
    obtain ⟨k', v'⟩ := hd
    simp only [List.map_cons, List.nodup_cons] at hnd
    by_cases hk : k' = k
    · subst hk
      simp [jmDelete, jmGet_none_of_not_mem t k' hnd.1]
    · simp [jmDelete, jmGet, hk, ih hnd.2]

/-! ## Lemmas about the cookie relay -/

theorem applyOverrides_name (opts : CookieRelayOptions) (p : ParsedCookie) :
    (applyOverrides opts p).name = p.name := by
  unfold applyOverrides
  split_ifs <;> rfl

theorem applyOverrides_value (opts : CookieRelayOptions) (p : ParsedCookie) :
    (applyOverrides opts p).value = p.value := by
  unfold applyOverrides
  split_ifs <;> rfl

theorem getCookies_storeCookies (store : CookieStore) (sid : String) (cookies : CookieJar) :
    getCookies (storeCookies store sid cookies) sid =
      cookies.foldl (fun jar kv => jmSet jar kv.1 kv.2) (getCookies store sid) := by
  unfold storeCookies getCookies
  by_cases h : (jmGet store sid).isSome
  · simp [h, jmGet_jmSet_self]
  · rw [Option.not_isSome_iff_eq_none] at h
    simp [h, jmGet_jmSet_self]

/-- relayCookie with the policy tests untangled into the single condition the
specification states: the cookie is stored iff the whitelist is empty or
contains the name, and the blacklist does not contain the name. -/
theorem relayCookie_eq (opts : CookieRelayOptions) (store : CookieStore) (sid s : String) :
    relayCookie opts store sid s =
      if (opts.cookieWhitelist = [] ∨ (parseCookieString s).name ∈ opts.cookieWhitelist)
          ∧ (parseCookieString s).name ∉ opts.cookieBlacklist then
        storeCookies store sid [((parseCookieString s).name, (parseCookieString s).value)]
      else store := by
  simp only [relayCookie]
  by_cases h1 : 0 < opts.cookieWhitelist.length ∧ (parseCookieString s).name ∉ opts.cookieWhitelist
  · have hP : ¬ ((opts.cookieWhitelist = [] ∨ (parseCookieString s).name ∈ opts.cookieWhitelist)
        ∧ (parseCookieString s).name ∉ opts.cookieBlacklist) := by
      rintro ⟨hall, -⟩
      rcases hall with hnil | hmem
      · rw [hnil] at h1
        exact absurd h1.1 (by simp)
      · exact h1.2 hmem
    rw [if_pos h1, if_neg hP]
  · by_cases h2 : (parseCookieString s).name ∈ opts.cookieBlacklist
    · have hP : ¬ ((opts.cookieWhitelist = [] ∨ (parseCookieString s).name ∈ opts.cookieWhitelist)
          ∧ (parseCookieString s).name ∉ opts.cookieBlacklist) := by
        rintro ⟨-, hbl⟩
        exact hbl h2
      rw [if_neg h1, if_pos h2, if_neg hP]
    · have hP : (opts.cookieWhitelist = [] ∨ (parseCookieString s).name ∈ opts.cookieWhitelist)
          ∧ (parseCookieString s).name ∉ opts.cookieBlacklist := by
        constructor
        · by_cases hmem : (parseCookieString s).name ∈ opts.cookieWhitelist
          · exact Or.inr hmem
          · left
            by_contra hne
            exact h1 ⟨List.length_pos.mpr hne, hmem⟩
        · exact h2
      rw [if_neg h1, if_neg h2, if_pos hP, applyOverrides_name, applyOverrides_value]

/-! ## Lemmas about splitting and prefixes -/

theorem splitChar_of_not_mem (c : Char) (xs : List Char) (h : c ∉ xs) :
    splitChar c xs = [xs] := by
  induction xs with
  | nil => rfl
  | cons x t ih =>
    simp only [List.mem_cons] at h
    push_neg at h
    have hx : ¬ x = c := fun hc => h.1 hc.symm
    simp [splitChar, hx, ih h.2]

theorem splitChar_append (c : Char) (xs ys : List Char) (h : c ∉ xs) :
    splitChar c (xs ++ c :: ys) = xs :: splitChar c ys := by
  induction xs with
  | nil => simp [splitChar]
  | cons x t ih =>
    simp only [List.mem_cons] at h
    push_neg at h
    have hx : ¬ x = c := fun hc => h.1 hc.symm
    simp [splitChar, hx, ih h.2]

theorem isPrefixOfAppend (l t : List Char) : l.isPrefixOf (l ++ t) = true := by
  induction l with
  | nil => simp [List.isPrefixOf]
  | cons c cs ih => simp [List.isPrefixOf, ih]

theorem jsStartsWith_append_left (a b : String) : jsStartsWith (a ++ b) a = true := by
  unfold jsStartsWith
  rw [stringDataAppend]
  exact isPrefixOfAppend a.data b.data

theorem headOfPrefixSingleton (c : Char) (l : List Char)
    (h : List.isPrefixOf [c] l = true) : ∃ t, l = c :: t := by
  cases l with
  | nil => cases h
  | cons x xs =>
    have hb : (c == x && List.isPrefixOf ([] : List Char) xs) = true := h
    rw [Bool.and_eq_true] at hb
    have hcx : c = x := eq_of_beq hb.1
    exact ⟨xs, by rw [hcx]⟩

theorem jsStartsWithFalseOfHeadNe (s p : String) (c d : Char) (cs ds : List Char)
    (hsd : s.data = c :: cs) (hpd : p.data = d :: ds) (hne : d ≠ c) :
    jsStartsWith s p = false := by
  unfold jsStartsWith
  rw [hsd, hpd]
  simp [List.isPrefixOf, beq_eq_false_iff_ne.mpr hne]

/-! ## Lemmas about the relay registry -/

theorem heartbeatSweep_fst_length_le (opts : RelayOptions) (now : Nat) (conns : Registry) :
    (heartbeatSweep opts now conns).1.length ≤ conns.length := by
  induction conns with
  | nil => simp [heartbeatSweep]
  | cons hd t ih =>
    obtain ⟨id, conn⟩ := hd
    by_cases h : now - conn.lastActivity > opts.timeout
    · simpa [heartbeatSweep, h] using Nat.le_succ_of_le ih
    · simpa [heartbeatSweep, h] using Nat.succ_le_succ ih

theorem applyEvent_length_le (opts : RelayOptions) (conns : Registry) (e : RelayEvent)
    (h : conns.length ≤ opts.maxConnections) :
    (applyEvent opts conns e).length ≤ opts.maxConnections := by
  cases e with
  | upgrade id ip now =>
    simp only [applyEvent, handleConnection]
    by_cases hc : conns.length ≥ opts.maxConnections
    · simpa [hc] using h
    · rw [if_neg hc]
      exact le_trans (jmSet_length_le conns id _) (Nat.succ_le_of_lt (Nat.not_le.mp hc))
  | message id now =>
    simp only [applyEvent, handleMessage]
    cases hg : jmGet conns id with
    | none => exact h
    | some conn =>
      rw [jmSet_length_of_isSome conns id _ (by rw [hg]; rfl)]
      exact h
  | close id =>
    simp only [applyEvent, handleClose]
    cases hg : jmGet conns id with
    | none => exact h
    | some conn => exact le_trans (jmDelete_length_le conns id) h
  | error id msg => exact h
  | pong id now =>
    simp only [applyEvent, handlePong]
    cases hg : jmGet conns id with
    | none => exact h
    | some conn =>
      rw [jmSet_length_of_isSome conns id _ (by rw [hg]; rfl)]
      exact h
  | sweep now =>
    exact le_trans (heartbeatSweep_fst_length_le opts now conns) h

theorem runEvents_length_le (opts : RelayOptions) (events : List RelayEvent) :
    ∀ conns : Registry, conns.length ≤ opts.maxConnections →
      (runEvents opts conns events).length ≤ opts.maxConnections := by
  induction events with
  | nil => intro conns h; exact h
  | cons e rest ih =>
    intro conns h
    exact ih (applyEvent opts conns e) (applyEvent_length_le opts conns e h)

/-! ## Claim theorems -/

/-- C1: starting from an empty registry, no sequence of relay events (upgrade
handshakes, messages, closes, errors, pongs, heartbeat sweeps) ever makes the
registry size exceed the configured maximum; an upgrade arriving while the
registry holds maxConnections entries is rejected with policy close code 1008
and the message 'Server at max capacity', leaving the registry unchanged; and
after one registered connection closes, the next upgrade attempt is accepted
and its connection is registered. -/
theorem relay_capacity_control (opts : RelayOptions) (events : List RelayEvent)
    (conns : Registry) (cid nid ip : String) (now : Nat)
    (hfull : conns.length = opts.maxConnections)
    (hmem : (jmGet conns cid).isSome = true) :
    (runEvents opts [] events).length ≤ opts.maxConnections
    ∧ handleConnection opts conns nid ip now
        = (conns, UpgradeResult.rejected 1008 "Server at max capacity")
    ∧ (handleConnection opts (handleClose conns cid) nid ip now).2 = UpgradeResult.accepted
    ∧ jmGet (handleConnection opts (handleClose conns cid) nid ip now).1 nid
        = some { id := nid, ip := ip, createdAt := now, lastActivity := now,
                 messages := 0 } := by
  have hclose : handleClose conns cid = jmDelete conns cid := by
    unfold handleClose
    cases hg : jmGet conns cid with
    | none => rw [hg] at hmem; cases hmem
    | some c => rfl
  have hlen : (handleClose conns cid).length < opts.maxConnections := by
    rw [hclose]
    have hd := jmDelete_length_of_isSome conns cid hmem
    omega
  refine ⟨runEvents_length_le opts events [] (by simp), ?_, ?_, ?_⟩
  · simp only [handleConnection]
    rw [if_pos (le_of_eq hfull.symm)]
  · simp only [handleConnection]
    rw [if_neg (Nat.not_le.mpr hlen)]
  · simp only [handleConnection]
    rw [if_neg (Nat.not_le.mpr hlen)]
    exact jmGet_jmSet_self _ nid _

theorem relay_capacity_control_witness :
    (runEvents { timeout := 60000, heartbeatInterval := 30000, maxConnections := 1 } []
        [RelayEvent.upgrade "a" "ip1" 0, RelayEvent.upgrade "b" "ip2" 1]).length ≤ 1
    ∧ handleConnection { timeout := 60000, heartbeatInterval := 30000, maxConnections := 1 }
        [("c", { id := "c", ip := "ip0", createdAt := 0, lastActivity := 0, messages := 0 })]
        "n" "ip3" 5
        = ([("c", { id := "c", ip := "ip0", createdAt := 0, lastActivity := 0, messages := 0 })],
           UpgradeResult.rejected 1008 "Server at max capacity")
    ∧ (handleConnection { timeout := 60000, heartbeatInterval := 30000, maxConnections := 1 }
        (handleClose
          [("c", { id := "c", ip := "ip0", createdAt := 0, lastActivity := 0, messages := 0 })]
          "c") "n" "ip3" 5).2 = UpgradeResult.accepted
    ∧ jmGet (handleConnection { timeout := 60000, heartbeatInterval := 30000, maxConnections := 1 }
        (handleClose
          [("c", { id := "c", ip := "ip0", createdAt := 0, lastActivity := 0, messages := 0 })]
          "c") "n" "ip3" 5).1 "n"
        = some { id := "n", ip := "ip3", createdAt := 5, lastActivity := 5, messages := 0 } :=
  relay_capacity_control _ _ _ "c" "n" "ip3" 5 (by decide) (by decide)

/-- C2: for every configured allow-list and deny-list and every Set-Cookie
string, relayCookie stores the parsed name/value pair in the session jar iff
the allow-list is empty or contains the name, and the deny-list does not
contain the name; otherwise the jar is untouched. In particular a name on
both lists fails the deny test, so deny wins and, starting from an empty
store, the cookie never appears via getCookies. -/
theorem relayCookie_allow_deny_policy (opts : CookieRelayOptions) (store : CookieStore)
    (sid s : String) :
    getCookies (relayCookie opts store sid s) sid =
      (if (opts.cookieWhitelist = [] ∨ (parseCookieString s).name ∈ opts.cookieWhitelist)
          ∧ (parseCookieString s).name ∉ opts.cookieBlacklist then
        jmSet (getCookies store sid) (parseCookieString s).name (parseCookieString s).value
      else getCookies store sid)
    ∧ jmGet (getCookies (relayCookie opts [] sid s) sid) (parseCookieString s).name =
      (if (opts.cookieWhitelist = [] ∨ (parseCookieString s).name ∈ opts.cookieWhitelist)
          ∧ (parseCookieString s).name ∉ opts.cookieBlacklist then
        some (parseCookieString s).value
      else none) := by
  constructor
  · rw [relayCookie_eq]
    by_cases hP : (opts.cookieWhitelist = [] ∨ (parseCookieString s).name ∈ opts.cookieWhitelist)
        ∧ (parseCookieString s).name ∉ opts.cookieBlacklist
    · rw [if_pos hP, if_pos hP, getCookies_storeCookies]
      simp [List.foldl]
    · rw [if_neg hP, if_neg hP]
  · rw [relayCookie_eq]
    by_cases hP : (opts.cookieWhitelist = [] ∨ (parseCookieString s).name ∈ opts.cookieWhitelist)
        ∧ (parseCookieString s).name ∉ opts.cookieBlacklist
    · rw [if_pos hP, if_pos hP, getCookies_storeCookies]
      simp [getCookies, jmGet, jmGet_jmSet_self]
    · rw [if_neg hP, if_neg hP]
      simp [getCookies, jmGet]

/-- C8: whenever the upstream call of the GET or POST /api/* handler fails,
the client response carries the upstream status when the failure provides a
(nonzero) one and 500 otherwise, with a JSON body holding the error, message
and timestamp fields. -/
theorem api_catch_error_response (n : Nat) (msg ts : String) (hn : n ≠ 0) :
    apiGetCatchResponse (some n) msg ts =
        { status := n,
          body := { error := "Proxy request failed", message := msg, timestamp := ts } }
    ∧ apiGetCatchResponse none msg ts =
        { status := 500,
          body := { error := "Proxy request failed", message := msg, timestamp := ts } }
    ∧ apiPostCatchResponse (some n) msg ts =
        { status := n,
          body := { error := "Proxy request failed", message := msg, timestamp := ts } }
    ∧ apiPostCatchResponse none msg ts =
        { status := 500,
          body := { error := "Proxy request failed", message := msg, timestamp := ts } } := by
  refine ⟨?_, rfl, ?_, rfl⟩ <;>
    simp [apiGetCatchResponse, apiPostCatchResponse, jsNumberOr, hn]

theorem api_catch_error_response_witness :
    apiGetCatchResponse (some 404) "boom" "2026-01-01T00:00:00.000Z" =
        { status := 404,
          body := { error := "Proxy request failed", message := "boom",
                    timestamp := "2026-01-01T00:00:00.000Z" } }
    ∧ apiGetCatchResponse none "boom" "2026-01-01T00:00:00.000Z" =
        { status := 500,
          body := { error := "Proxy request failed", message := "boom",
                    timestamp := "2026-01-01T00:00:00.000Z" } }
    ∧ apiPostCatchResponse (some 404) "boom" "2026-01-01T00:00:00.000Z" =
        { status := 404,
          body := { error := "Proxy request failed", message := "boom",
                    timestamp := "2026-01-01T00:00:00.000Z" } }
    ∧ apiPostCatchResponse none "boom" "2026-01-01T00:00:00.000Z" =
        { status := 500,
          body := { error := "Proxy request failed", message := "boom",
                    timestamp := "2026-01-01T00:00:00.000Z" } } :=
  api_catch_error_response 404 "boom" "2026-01-01T00:00:00.000Z" (by decide)

/-- C10: getStats on an empty registry is total and returns zero active
connections, zero total messages, maxCapacity equal to the configured
maximum, and oldestConnectionAge equal to negative infinity, because
Math.min over an empty spread is positive infinity. -/
theorem getStats_empty_registry (opts : RelayOptions) (now : Nat) :
    getStats opts [] now =
      { activeConnections := 0, totalMessages := 0,
        oldestConnectionAge := JsNumber.negInf, maxCapacity := opts.maxConnections } := rfl

/-- C3 helper: every rewriteUrl result is either the input itself or a
string of the form proxyBaseUrl ++ '/proxy?url=' ++ encoded. -/
theorem rewriteUrl_shape (lib : UrlLib) (url pb tu : String) :
    rewriteUrl lib url pb tu = url
    ∨ ∃ e, rewriteUrl lib url pb tu = pb ++ ("/proxy?url=" ++ e) := by
  unfold rewriteUrl
  split_ifs <;> first
    | exact Or.inl rfl
    | exact Or.inr ⟨_, rfl⟩

/-- C3 helper: any string of proxy-link shape is returned unchanged, because
it either matches the skip branch or starts with proxyBaseUrl. -/
theorem rewriteUrl_fixes_proxied (lib : UrlLib) (pb tu e : String) :
    rewriteUrl lib (pb ++ ("/proxy?url=" ++ e)) pb tu = pb ++ ("/proxy?url=" ++ e) := by
  unfold rewriteUrl
  by_cases h1 : pb ++ ("/proxy?url=" ++ e) = "" ∨ pb ++ ("/proxy?url=" ++ e) = "#"
      ∨ jsStartsWith (pb ++ ("/proxy?url=" ++ e)) "javascript:" = true
  · rw [if_pos h1]
  · rw [if_neg h1, if_pos (jsStartsWith_append_left pb ("/proxy?url=" ++ e))]

/-- C3: rewriteUrl is idempotent for every input URL and every fixed
RewriteContext (proxyBaseUrl, targetUrl), regardless of the behaviour of the
host URL library: an already-proxied URL is never rewritten again. -/
theorem rewriteUrl_idempotent (lib : UrlLib) (url pb tu : String) :
    rewriteUrl lib (rewriteUrl lib url pb tu) pb tu = rewriteUrl lib url pb tu := by
  rcases rewriteUrl_shape lib url pb tu with h | ⟨e, h⟩
  · rw [h]
    exact h
  · rw [h]
    exact rewriteUrl_fixes_proxied lib pb tu e

/-- C4 counterexample: with stripSecure configured and empty policy lists,
relaying the header 'a=b; Secure' stores only the bare value string under
the name: the resulting store is byte-for-byte the one produced by relaying
'a=b' with no Secure attribute at all, although the two parsed records
differ in their attribute mappings. The jar entry is therefore not a
CookieRecord carrying an attribute mapping with secure cleared to false; the
attribute mapping is discarded before storage. -/
theorem relayCookie_discards_attributes_cex :
    relayCookie stripSecureOptions [] "s" "a=b; Secure" = [("s", [("a", some "b")])]
    ∧ relayCookie stripSecureOptions [] "s" "a=b; Secure"
      = relayCookie stripSecureOptions [] "s" "a=b"
    ∧ parseCookieString "a=b; Secure" ≠ parseCookieString "a=b" :=
  ⟨rfl, rfl, by decide⟩

/-- C4 amended: for a Set-Cookie string that passes the allow/deny policy,
relayCookie clears the secure (respectively httpOnly) attribute to false on
the in-memory parsed record when the stripSecure (respectively
stripHttpOnly) override is configured, but then stores only the name/value
pair in the session jar, replacing any prior entry of that name; the
attribute mapping is not stored. -/
theorem relayCookie_overrides_in_memory_only (opts : CookieRelayOptions) (store : CookieStore)
    (sid s : String)
    (hallow : opts.cookieWhitelist = [] ∨ (parseCookieString s).name ∈ opts.cookieWhitelist)
    (hdeny : (parseCookieString s).name ∉ opts.cookieBlacklist) :
    (opts.stripSecure = true →
      jmGet (applyOverrides opts (parseCookieString s)).attributes "secure"
        = some (AttrVal.flag false))
    ∧ (opts.stripHttpOnly = true →
      jmGet (applyOverrides opts (parseCookieString s)).attributes "httpOnly"
        = some (AttrVal.flag false))
    ∧ relayCookie opts store sid s
        = storeCookies store sid
            [((parseCookieString s).name, (parseCookieString s).value)] := by
  refine ⟨?_, ?_, ?_⟩
  · intro hS
    have hne : ∀ (m : List (String × AttrVal)) (v : AttrVal),
        jmGet (jmSet m "httpOnly" v) "secure" = jmGet m "secure" :=
      fun m v => jmGet_jmSet_ne m "httpOnly" "secure" v (by decide)
    by_cases hH : opts.stripHttpOnly
    · simp [applyOverrides, hS, hH, hne, jmGet_jmSet_self]
    · simp [applyOverrides, hS, hH, jmGet_jmSet_self]
  · intro hH
    by_cases hS : opts.stripSecure
    · simp [applyOverrides, hS, hH, jmGet_jmSet_self]
    · simp [applyOverrides, hS, hH, jmGet_jmSet_self]
  · rw [relayCookie_eq, if_pos ⟨hallow, hdeny⟩]

theorem relayCookie_overrides_in_memory_only_witness :
    jmGet (applyOverrides stripBothOptions (parseCookieString "a=b; Secure")).attributes
        "secure" = some (AttrVal.flag false)
    ∧ jmGet (applyOverrides stripBothOptions (parseCookieString "a=b; Secure")).attributes
        "httpOnly" = some (AttrVal.flag false)
    ∧ relayCookie stripBothOptions [] "s" "a=b; Secure"
      = storeCookies [] "s"
          [((parseCookieString "a=b; Secure").name, (parseCookieString "a=b; Secure").value)] := by
  have h := relayCookie_overrides_in_memory_only stripBothOptions [] "s" "a=b; Secure"
    (Or.inl rfl) (by decide)
  exact ⟨h.1 rfl, h.2.1 rfl, h.2.2⟩

/-- C5 counterexample: after the error handler runs on a registered
connection, the registry still contains that connection's id, because
handleError only logs and performs no deregistration. -/
theorem handleError_keeps_connection_cex :
    jmGet (handleError
        [("c1", { id := "c1", ip := "::1", createdAt := 0, lastActivity := 0, messages := 0 })]
        "c1" "read ECONNRESET") "c1"
      = some { id := "c1", ip := "::1", createdAt := 0, lastActivity := 0, messages := 0 } := rfl

/-- C5 amended: a socket-level error is logged and leaves the registry
unchanged; the connection is deregistered only by the close handler when the
accompanying close event fires, after which the registry no longer contains
the id. -/
theorem handleError_logs_close_deregisters (conns : Registry) (cid msg : String)
    (hnd : (conns.map Prod.fst).Nodup) :
    handleError conns cid msg = conns
    ∧ jmGet (handleClose (handleError conns cid msg) cid) cid = none := by
  refine ⟨rfl, ?_⟩
  unfold handleError handleClose
  cases hg : jmGet conns cid with
  | none => exact hg
  | some c => exact jmGet_jmDelete_self conns cid hnd

theorem handleError_logs_close_deregisters_witness :
    handleError
        [("c1", { id := "c1", ip := "::1", createdAt := 0, lastActivity := 0, messages := 0 })]
        "c1" "read ECONNRESET"
      = [("c1", { id := "c1", ip := "::1", createdAt := 0, lastActivity := 0, messages := 0 })]
    ∧ jmGet (handleClose (handleError
        [("c1", { id := "c1", ip := "::1", createdAt := 0, lastActivity := 0, messages := 0 })]
        "c1" "read ECONNRESET") "c1") "c1" = none :=
  handleError_logs_close_deregisters _ "c1" "read ECONNRESET" (by decide)

/-- C6 counterexample: one heartbeat sweep over a registry holding a fresh
connection ahead of a stale one emits the ping to the fresh connection
before the eviction of the stale one, so eviction does not complete before
the first liveness probe is sent. -/
theorem heartbeatSweep_interleaves_cex :
    (heartbeatSweep { timeout := 10, heartbeatInterval := 30, maxConnections := 1000 } 100
        [("a", { id := "a", ip := "ip", createdAt := 0, lastActivity := 100, messages := 0 }),
         ("b", { id := "b", ip := "ip", createdAt := 0, lastActivity := 0, messages := 0 })]).2
      = [SweepAction.ping "a", SweepAction.close "b" 1000 "Timeout"]
    ∧ allClosesPrecedePings
        (heartbeatSweep { timeout := 10, heartbeatInterval := 30, maxConnections := 1000 } 100
          [("a", { id := "a", ip := "ip", createdAt := 0, lastActivity := 100, messages := 0 }),
           ("b", { id := "b", ip := "ip", createdAt := 0, lastActivity := 0, messages := 0 })]).2
      = false :=
  ⟨rfl, rfl⟩

/-- C6 amended: one heartbeat sweep handles each connection independently in
iteration order: the surviving registry is exactly the connections whose
idle time is within the timeout, the closed ids are exactly the idle
connections' ids, and a ping is sent to exactly the survivors, so no
connection evicted in that sweep is pinged; however a ping to an earlier
survivor may be emitted before a later eviction in the same pass. -/
theorem heartbeatSweep_eviction_ping_partition (opts : RelayOptions) (now : Nat)
    (conns : Registry) :
    (heartbeatSweep opts now conns).1
      = conns.filter (fun e => !(decide (now - e.2.lastActivity > opts.timeout)))
    ∧ closedIds (heartbeatSweep opts now conns).2
      = (conns.filter (fun e => decide (now - e.2.lastActivity > opts.timeout))).map Prod.fst
    ∧ pingedIds (heartbeatSweep opts now conns).2
      = (conns.filter (fun e => !(decide (now - e.2.lastActivity > opts.timeout)))).map
          Prod.fst := by
  induction conns with
  | nil => exact ⟨rfl, rfl, rfl⟩
  | cons hd t ih =>
    obtain ⟨id, conn⟩ := hd
    by_cases h : now - conn.lastActivity > opts.timeout
    · simp [heartbeatSweep, h, closedIds, pingedIds, ih.1, ih.2.1, ih.2.2]
    · simp [heartbeatSweep, h, closedIds, pingedIds, ih.1, ih.2.1, ih.2.2]

/-- C7: a fragment reference (any input starting with '#') and a javascript:
pseudo-protocol URL are returned unchanged by rewriteUrl, for every
RewriteContext and every behaviour of the host URL library. -/
theorem rewriteUrl_skips_fragment_and_js (lib : UrlLib) (url pb tu : String)
    (h : jsStartsWith url "#" = true ∨ jsStartsWith url "javascript:" = true) :
    rewriteUrl lib url pb tu = url := by
  rcases h with h | h
  · obtain ⟨t, ht⟩ := headOfPrefixSingleton '#' url.data h
    unfold rewriteUrl
    by_cases h1 : url = "" ∨ url = "#" ∨ jsStartsWith url "javascript:" = true
    · rw [if_pos h1]
    · rw [if_neg h1]
      by_cases h2 : jsStartsWith url pb = true
      · rw [if_pos h2]
      · rw [if_neg h2]
        have h3a : jsStartsWith url "http://" = false :=
          jsStartsWithFalseOfHeadNe url "http://" '#' 'h' t "ttp://".data ht rfl (by decide)
        have h3b : jsStartsWith url "https://" = false :=
          jsStartsWithFalseOfHeadNe url "https://" '#' 'h' t "ttps://".data ht rfl (by decide)
        have h4 : jsStartsWith url "//" = false :=
          jsStartsWithFalseOfHeadNe url "//" '#' '/' t "/".data ht rfl (by decide)
        have h5 : jsStartsWith url "/" = false :=
          jsStartsWithFalseOfHeadNe url "/" '#' '/' t "".data ht rfl (by decide)
        rw [if_neg (by simp [h3a, h3b]), if_neg (by simp [h4]), if_neg (by simp [h5]),
            if_neg (by simp [h])]
  · unfold rewriteUrl
    rw [if_pos (Or.inr (Or.inr h))]

theorem rewriteUrl_skips_fragment_and_js_witness :
    rewriteUrl idUrlLib "#section2" "http://localhost:3000" "https://api.example.com/page"
      = "#section2"
    ∧ rewriteUrl idUrlLib "javascript:void(0)" "http://localhost:3000"
        "https://api.example.com/page" = "javascript:void(0)" :=
  ⟨rewriteUrl_skips_fragment_and_js idUrlLib "#section2" "http://localhost:3000"
      "https://api.example.com/page" (Or.inl (by decide)),
    rewriteUrl_skips_fragment_and_js idUrlLib "javascript:void(0)" "http://localhost:3000"
      "https://api.example.com/page" (Or.inr (by decide))⟩

/-- C9: for a Set-Cookie string of shape name '=' value '=' remainder (a
single ';'-free, pre-trimmed part, with no '=' inside name or value),
parseCookieString keeps only the text between the first and second '=' as
the cookie value, silently truncating the remainder, and relayCookie with
empty policy lists stores exactly that truncated value in the jar. -/
theorem parseCookieString_truncates_value (s : String) (n v w : List Char)
    (hs : s.data = n ++ '=' :: (v ++ '=' :: w))
    (hn : '=' ∉ n) (hv : '=' ∉ v)
    (hsemi : ';' ∉ s.data) (htrim : jsTrim s = s) :
    (parseCookieString s).name = String.mk n
    ∧ (parseCookieString s).value = some (String.mk v)
    ∧ getCookies (relayCookie noPolicyOptions [] "sid" s) "sid"
      = [(String.mk n, some (String.mk v))] := by
  have hparts : jsSplit ';' s = [s] := by
    unfold jsSplit
    rw [splitChar_of_not_mem ';' s.data hsemi]
    simp [stringMkData]
  have hnv : jsSplit '=' s
      = String.mk n :: String.mk v :: (splitChar '=' w).map String.mk := by
    unfold jsSplit
    rw [hs, splitChar_append '=' n (v ++ '=' :: w) hn, splitChar_append '=' v w hv]
    simp
  have hname : (parseCookieString s).name = String.mk n := by
    simp [parseCookieString, hparts, htrim, hnv]
  have hvalue : (parseCookieString s).value = some (String.mk v) := by
    simp [parseCookieString, hparts, htrim, hnv]
  refine ⟨hname, hvalue, ?_⟩
  rw [relayCookie_eq, if_pos ⟨Or.inl rfl, List.not_mem_nil _⟩, getCookies_storeCookies]
  simp [getCookies, jmGet, jmSet, hname, hvalue]

theorem parseCookieString_truncates_value_witness :
    (parseCookieString "token=abc=def").name = String.mk ['t','o','k','e','n']
    ∧ (parseCookieString "token=abc=def").value = some (String.mk ['a','b','c'])
    ∧ getCookies (relayCookie noPolicyOptions [] "sid" "token=abc=def") "sid"
      = [(String.mk ['t','o','k','e','n'], some (String.mk ['a','b','c']))] :=
  parseCookieString_truncates_value "token=abc=def" ['t','o','k','e','n'] ['a','b','c']
    ['d','e','f'] (by decide) (by decide) (by decide) (by decide) (by decide)
